import Mathlib

/-!
Verification of the task/processor core of a small rCore-style teaching kernel.

Shallow embedding of:
  * src/os/src/task/task.rs       (TaskControlBlock, TaskInfo, TaskStatus)
  * src/os/src/task/processor.rs  (Processor, run_tasks, schedule, accessors)

Machine-integer conventions: `usize` values are embedded as `Nat`, `isize`/`i32`
values as `Int` (the addresses handled here are user-space addresses far below
2^63, so the `as isize` casts and signed additions in the source are exact);
the `u32` syscall counters wrap modulo 2^32 (`UINT32_MOD`), which is made
explicit where the source performs `+= 1` on a `u32`.

External collaborators (crate::mm::MemorySet, crate::timer::get_time_ms,
super::TaskContext, crate::trap) live outside src/ and are modelled as an
abstract interface (`MemOps`) and explicit parameters, following the spec's
"interfaces only" treatment of them.
-/

/-- Task status enum: UnInit, Ready, Running, Exited (task.rs, `TaskStatus`). -/
inductive TaskStatus where
  | UnInit
  | Ready
  | Running
  | Exited
deriving DecidableEq

/-- Modelled from the spec: `MAX_SYSCALL_NUM` comes from `crate::config`, which is
not under src/; the spec only requires it to be the fixed bound of the
`syscall_times` array. The concrete value does not affect any claim. -/
def MAX_SYSCALL_NUM : Nat := 500

/-- The modulus 2^32 for the wrap-around of the `u32` syscall counters. -/
def UINT32_MOD : Nat := 4294967296

/-- The 64-bit `usize` value of `!0x7` used in `m_map`'s permission check. -/
def USIZE_NOT_7 : Nat := 0xFFFFFFFFFFFFFFF8

/-- Accounting record nested in the TCB (task.rs, `TaskInfo`):
status mirror, per-syscall-id `u32` counters (length `MAX_SYSCALL_NUM`),
and total running time. -/
structure TaskInfo where
  status : TaskStatus
  syscall_times : List Nat
  time : Nat
deriving DecidableEq

/-- Embeds `TaskInfo::new` (task.rs): given initial status, zero counters and time. -/
def TaskInfo.new (ts : TaskStatus) : TaskInfo :=
  { status := ts
    syscall_times := List.replicate MAX_SYSCALL_NUM 0
    time := 0 }

/-- Embeds `TaskInfo::set_status` (task.rs). -/
def TaskInfo.set_status (info : TaskInfo) (status : TaskStatus) : TaskInfo :=
  { info with status := status }

/-- Embeds `TaskInfo::increase_syscall_time` (task.rs): bounds-guarded `u32` increment
of the counter at `idx`; out-of-range indices are a silent no-op. -/
def TaskInfo.increase_syscall_time (info : TaskInfo) (idx : Nat) : TaskInfo :=
  if idx < MAX_SYSCALL_NUM then
    { info with syscall_times :=
        info.syscall_times.set idx ((info.syscall_times.getD idx 0 + 1) % UINT32_MOD) }
  else info

/-- Embeds `TaskInfo::set_run_time` (task.rs). -/
def TaskInfo.set_run_time (info : TaskInfo) (t : Nat) : TaskInfo :=
  { info with time := t }

/-- Opaque saved-register context (`super::TaskContext`, outside src/). -/
structure TaskContext where
  regs : Unit
deriving DecidableEq

/-- Embeds `TaskContext::zero_init` (outside src/): opaque zeroed context. -/
def TaskContext.zero_init : TaskContext := ⟨()⟩

/-- Embeds `TaskContext::goto_trap_return` (outside src/): opaque initial context. -/
def TaskContext.goto_trap_return (_kernel_stack_top : Nat) : TaskContext := ⟨()⟩

/-- Interface of the external `crate::mm::MemorySet` (outside src/, spec §6),
over an abstract state type `M`. Each operation returns the successor state
together with its result; `insert_framed_area` receives the raw `usize`
permission value that the source passes to `MapPermission::from_usize`. -/
structure MemOps (M : Type) where
  shrink_to : M → Nat → Nat → M × Bool
  append_to : M → Nat → Nat → M × Bool
  insert_framed_area : M → Nat → Nat → Nat → M × Int
  remove_area : M → Nat → Nat → M × Int
  token : M → Nat

/-- The task control block (task.rs, `TaskControlBlock`), parametric in the
abstract address-space state `M`. -/
structure TaskControlBlock (M : Type) where
  task_info : TaskInfo
  task_cx : TaskContext
  task_status : TaskStatus
  memory_set : M
  trap_cx_ppn : Nat
  base_size : Nat
  heap_bottom : Nat
  program_brk : Nat
  task_start_time : Nat

/-- The record construction inside `TaskControlBlock::new` (task.rs lines 62-72).
The external loader results (`memory_set`, `user_sp` from `MemorySet::from_elf`,
`trap_cx_ppn` from `translate`, `kernel_stack_top` from `kernel_stack_position`)
are parameters; the kernel-stack insertion and trap-context preparation act on
external state and do not touch the constructed record's fields. -/
def TaskControlBlock.new {M : Type} (memory_set : M) (user_sp : Nat)
    (trap_cx_ppn : Nat) (kernel_stack_top : Nat) : TaskControlBlock M :=
  { task_info := TaskInfo.new TaskStatus.Ready
    task_cx := TaskContext.goto_trap_return kernel_stack_top
    task_status := TaskStatus.Ready
    memory_set := memory_set
    trap_cx_ppn := trap_cx_ppn
    base_size := user_sp
    heap_bottom := user_sp
    program_brk := user_sp
    task_start_time := 0 }

/-- Embeds `TaskControlBlock::get_user_token` (task.rs): `self.memory_set.token()`. -/
def TaskControlBlock.get_user_token {M : Type} (ops : MemOps M)
    (tcb : TaskControlBlock M) : Nat :=
  ops.token tcb.memory_set

/-- Embeds `TaskControlBlock::change_program_brk` (task.rs lines 85-104):
reject if the new break would fall below `heap_bottom`; otherwise delegate to
`shrink_to` (negative delta) or `append_to` (non-negative delta) and commit the
new break only if the delegated operation reports success. -/
def TaskControlBlock.change_program_brk {M : Type} (ops : MemOps M)
    (tcb : TaskControlBlock M) (size : Int) : TaskControlBlock M × Option Nat :=
  let old_break := tcb.program_brk
  let new_brk : Int := (tcb.program_brk : Int) + size
  if new_brk < (tcb.heap_bottom : Int) then
    (tcb, none)
  else
    let r :=
      if size < 0 then ops.shrink_to tcb.memory_set tcb.heap_bottom new_brk.toNat
      else ops.append_to tcb.memory_set tcb.heap_bottom new_brk.toNat
    if r.2 then
      ({ tcb with memory_set := r.1, program_brk := new_brk.toNat }, some old_break)
    else
      ({ tcb with memory_set := r.1 }, none)

/-- Embeds `TaskControlBlock::m_map` (task.rs lines 106-120): validate page alignment
of `start` and the permission bits (`port & !0x7 == 0`, `port & 0x7 != 0`),
then forward `[start, start+len)` with permission `(port << 1) | 0x18` to
`insert_framed_area`; return `-1` on validation failure. -/
def TaskControlBlock.m_map {M : Type} (ops : MemOps M) (tcb : TaskControlBlock M)
    (start len port : Nat) : TaskControlBlock M × Int :=
  if start % 4096 = 0 ∧ port &&& USIZE_NOT_7 = 0 ∧ port &&& 0x7 ≠ 0 then
    let r := ops.insert_framed_area tcb.memory_set start (start + len)
      ((port <<< 1) ||| 0x18)
    ({ tcb with memory_set := r.1 }, r.2)
  else
    (tcb, -1)

/-- Embeds `TaskControlBlock::m_unmap` (task.rs lines 122-137): validate page alignment
of both `start` and `len`, then forward `[start, start+len)` to `remove_area`;
return `-1` on validation failure. -/
def TaskControlBlock.m_unmap {M : Type} (ops : MemOps M) (tcb : TaskControlBlock M)
    (start len : Nat) : TaskControlBlock M × Int :=
  if start % 4096 = 0 ∧ len % 4096 = 0 then
    let r := ops.remove_area tcb.memory_set start (start + len)
    ({ tcb with memory_set := r.1 }, r.2)
  else
    (tcb, -1)

/-- Processor management structure (processor.rs, `Processor`). The `current`
slot holds the currently running task (empty when the dispatcher is between
tasks); the Rust `Arc`/`UPSafeCell` sharing collapses to direct ownership in
this single-core model. -/
structure Processor (M : Type) where
  current : Option (TaskControlBlock M)
  idle_task_cx : TaskContext

/-- Embeds `Processor::new` (processor.rs): empty current slot, zeroed idle context. -/
def Processor.new {M : Type} : Processor M :=
  { current := none, idle_task_cx := TaskContext.zero_init }

/-- Embeds `Processor::refresh_task_info` (processor.rs lines 48-56): `unwrap` the
current task (modelled as `none` on the panicking path), mirror its
authoritative `task_status` into its `TaskInfo`, and, when `refresh_flag` is
set, bump the syscall counter at `syscall_idx`. -/
def Processor.refresh_task_info {M : Type} (p : Processor M)
    (syscall_idx : Nat) (refresh_flag : Bool) : Option (Processor M) :=
  match p.current with
  | none => none
  | some tcb =>
    let status := tcb.task_status
    let info1 := tcb.task_info.set_status status
    let info2 := if refresh_flag then info1.increase_syscall_time syscall_idx else info1
    some { p with current := some { tcb with task_info := info2 } }

/-- Embeds `Processor::get_current_task_info` (processor.rs lines 58-67): `unwrap` the
current task, recompute its running time as `now - task_start_time` (the
external `get_time_ms()` is the parameter `now`), store it into the task's
`TaskInfo`, and return a by-value snapshot of that `TaskInfo`. -/
def Processor.get_current_task_info {M : Type} (p : Processor M) (now : Nat) :
    Option (Processor M × TaskInfo) :=
  match p.current with
  | none => none
  | some tcb =>
    let run_time := now - tcb.task_start_time
    let info := tcb.task_info.set_run_time run_time
    some ({ p with current := some { tcb with task_info := info } }, info)

/-- Embeds `Processor::current_task_m_map` (processor.rs lines 69-76): `unwrap` the
current task and delegate to its `m_map`. -/
def Processor.current_task_m_map {M : Type} (ops : MemOps M) (p : Processor M)
    (start len port : Nat) : Option (Processor M × Int) :=
  match p.current with
  | none => none
  | some tcb =>
    let r := tcb.m_map ops start len port
    some ({ p with current := some r.1 }, r.2)

/-- Embeds `Processor::current_task_m_unmap` (processor.rs lines 78-83): `unwrap` the
current task and delegate to its `m_unmap`. -/
def Processor.current_task_m_unmap {M : Type} (ops : MemOps M) (p : Processor M)
    (start len : Nat) : Option (Processor M × Int) :=
  match p.current with
  | none => none
  | some tcb =>
    let r := tcb.m_unmap ops start len
    some ({ p with current := some r.1 }, r.2)

/-- Embeds `current_user_token` (processor.rs lines 127-130): `unwrap` the current
task and return its address-space token. -/
def Processor.current_user_token {M : Type} (ops : MemOps M) (p : Processor M) :
    Option Nat :=
  match p.current with
  | none => none
  | some tcb => some (tcb.get_user_token ops)

/-- Embeds `current_trap_cx` (processor.rs lines 133-138): `unwrap` the current task
and return the trap-context view derived from its `trap_cx_ppn` (the external
`PhysPageNum::get_mut` dereference is outside src/; the physical page number
determines the returned reference). -/
def Processor.current_trap_cx {M : Type} (p : Processor M) : Option Nat :=
  match p.current with
  | none => none
  | some tcb => some tcb.trap_cx_ppn

/-- Modelled from the spec: the accounting read path. The syscall dispatcher
(src/os/src/syscall, not under src/) records every syscall via
`refresh_processor_syscall_times` — which calls `refresh_task_info(idx, true)`,
syncing the status mirror — before `sys_task_info` reads the snapshot through
`get_current_processor_info` / `get_current_task_info`. -/
def Processor.task_info_read_path {M : Type} (p : Processor M)
    (syscall_idx now : Nat) : Option (Processor M × TaskInfo) :=
  match p.refresh_task_info syscall_idx true with
  | none => none
  | some p1 => p1.get_current_task_info now

/-- Guard/switch events, in source order, of the scheduling code
(processor.rs): acquisitions and releases of the `PROCESSOR` singleton guard
(`exclusive_access` / `drop`) and of a task's inner TCB guard
(`inner_exclusive_access` / `drop`), the `__switch` call, and the
no-task warning. -/
inductive SchedEvent where
  | acquireProcessor
  | releaseProcessor
  | acquireTaskInner
  | releaseTaskInner
  | switchCall
  | warnNoTask
deriving DecidableEq

/-- One iteration of `run_tasks` (processor.rs lines 92-114), transcribed
statement by statement as its guard/switch events. With a fetched task:
acquire the processor guard, acquire the task's inner guard, `drop(task_inner)`,
`drop(processor)`, then `__switch`. With no task: the warning, and the
processor guard is released at the end of the iteration's scope. -/
def run_tasks_iter (has_task : Bool) : List SchedEvent :=
  if has_task then
    [SchedEvent.acquireProcessor, SchedEvent.acquireTaskInner,
     SchedEvent.releaseTaskInner, SchedEvent.releaseProcessor,
     SchedEvent.switchCall]
  else
    [SchedEvent.acquireProcessor, SchedEvent.warnNoTask,
     SchedEvent.releaseProcessor]

/-- Embeds `schedule` (processor.rs lines 141-148), transcribed statement by
statement: acquire the processor guard, read the idle context pointer,
`drop(processor)`, then `__switch`. -/
def schedule_events : List SchedEvent :=
  [SchedEvent.acquireProcessor, SchedEvent.releaseProcessor,
   SchedEvent.switchCall]

/-- Walks an event list tracking how many processor guards (`p`) and inner TCB
guards (`i`) are currently held, and checks that both counts are zero at every
`switchCall`. -/
def noGuardHeldAtSwitch : Nat → Nat → List SchedEvent → Bool
  | _, _, [] => true
  | p, i, SchedEvent.acquireProcessor :: rest => noGuardHeldAtSwitch (p + 1) i rest
  | p, i, SchedEvent.releaseProcessor :: rest => noGuardHeldAtSwitch (p - 1) i rest
  | p, i, SchedEvent.acquireTaskInner :: rest => noGuardHeldAtSwitch p (i + 1) rest
  | p, i, SchedEvent.releaseTaskInner :: rest => noGuardHeldAtSwitch p (i - 1) rest
  | p, i, SchedEvent.warnNoTask :: rest => noGuardHeldAtSwitch p i rest
  | p, i, SchedEvent.switchCall :: rest =>
    p == 0 && i == 0 && noGuardHeldAtSwitch p i rest

/-- Trivial concrete instance of the external address-space interface, used
only to evaluate the theorems at concrete inputs. -/
def unitMemOps : MemOps Unit :=
  { shrink_to := fun m _ _ => (m, true)
    append_to := fun m _ _ => (m, true)
    insert_framed_area := fun m _ _ _ => (m, 0)
    remove_area := fun m _ _ => (m, 0)
    token := fun _ => 0 }

/-- A sample freshly constructed task (user stack pointer 4096). -/
def sampleTCB : TaskControlBlock Unit :=
  TaskControlBlock.new () 4096 1 2

/-- A sample processor currently running `sampleTCB`. -/
def sampleProcessor : Processor Unit :=
  { current := some sampleTCB, idle_task_cx := TaskContext.zero_init }

/-- C1: `change_program_brk` rejects (returns `none`, state unchanged) whenever
`program_brk + delta` would fall below `heap_bottom`; otherwise it delegates to
the address space and, on success, sets `program_brk` to exactly
`program_brk + delta` and returns the previous break, while on delegated
failure it returns `none` with `program_brk` unchanged (no partial
application). -/
theorem change_program_brk_spec {M : Type} (ops : MemOps M)
    (tcb : TaskControlBlock M) (size : Int) :
    ((tcb.program_brk : Int) + size < (tcb.heap_bottom : Int) →
      tcb.change_program_brk ops size = (tcb, none)) ∧
    ((tcb.heap_bottom : Int) ≤ (tcb.program_brk : Int) + size →
      ∀ m' ok,
        (if size < 0 then
           ops.shrink_to tcb.memory_set tcb.heap_bottom
             ((tcb.program_brk : Int) + size).toNat
         else
           ops.append_to tcb.memory_set tcb.heap_bottom
             ((tcb.program_brk : Int) + size).toNat) = (m', ok) →
        tcb.change_program_brk ops size =
          (if ok then
             ({ tcb with memory_set := m',
                         program_brk := ((tcb.program_brk : Int) + size).toNat },
              some tcb.program_brk)
           else ({ tcb with memory_set := m' }, none)) ∧
        (ok = true →
          (((tcb.change_program_brk ops size).1.program_brk : Int) =
            (tcb.program_brk : Int) + size))) := by
  constructor
  · intro h
    simp only [TaskControlBlock.change_program_brk, if_pos h]
  · intro h m' ok heq
    have hnlt : ¬ ((tcb.program_brk : Int) + size < (tcb.heap_bottom : Int)) :=
      not_lt.mpr h
    have hres : tcb.change_program_brk ops size =
        (if ok then
           ({ tcb with memory_set := m',
                       program_brk := ((tcb.program_brk : Int) + size).toNat },
            some tcb.program_brk)
         else ({ tcb with memory_set := m' }, none)) := by
      simp only [TaskControlBlock.change_program_brk, if_neg hnlt, heq]
    refine ⟨hres, ?_⟩
    intro hok
    subst hok
    rw [hres]
    simp only [if_true]
    have h0 : (0:Int) ≤ (tcb.program_brk : Int) + size :=
      le_trans (Int.ofNat_nonneg _) h
    simp
    omega

/-- C1 witness: shrinking the sample task's break 9000 bytes below the heap
bottom is rejected with no state change. -/
theorem change_program_brk_spec_witness :
    sampleTCB.change_program_brk unitMemOps (-9000) = (sampleTCB, none) :=
  (change_program_brk_spec unitMemOps sampleTCB (-9000)).1 (by decide)

/-- C2: `m_map` returns `-1` and leaves the task (including its address-space
state) unchanged whenever `start` is not page-aligned, `port` has bits outside
the low three, or `port` has no permission bit set; calls passing all three
checks are forwarded to the address space's `insert_framed_area`. -/
theorem m_map_validation {M : Type} (ops : MemOps M) (tcb : TaskControlBlock M)
    (start len port : Nat) :
    ((¬ start % 4096 = 0 ∨ ¬ port &&& USIZE_NOT_7 = 0 ∨ port &&& 0x7 = 0) →
      tcb.m_map ops start len port = (tcb, -1)) ∧
    (start % 4096 = 0 → port &&& USIZE_NOT_7 = 0 → port &&& 0x7 ≠ 0 →
      tcb.m_map ops start len port =
        ({ tcb with memory_set :=
             (ops.insert_framed_area tcb.memory_set start (start + len)
               ((port <<< 1) ||| 0x18)).1 },
         (ops.insert_framed_area tcb.memory_set start (start + len)
           ((port <<< 1) ||| 0x18)).2)) := by
  constructor
  · intro h
    have hcond : ¬ (start % 4096 = 0 ∧ port &&& USIZE_NOT_7 = 0 ∧ port &&& 0x7 ≠ 0) := by
      rintro ⟨h1, h2, h3⟩
      rcases h with h | h | h
      · exact h h1
      · exact h h2
      · exact h3 h
    simp only [TaskControlBlock.m_map, if_neg hcond]
  · intro h1 h2 h3
    simp only [TaskControlBlock.m_map, if_pos (And.intro h1 (And.intro h2 h3))]

/-- C2 witness: a misaligned start address (5) is rejected with the task
unchanged. -/
theorem m_map_validation_witness :
    sampleTCB.m_map unitMemOps 5 4096 1 = (sampleTCB, -1) :=
  (m_map_validation unitMemOps sampleTCB 5 4096 1).1 (Or.inl (by decide))

/-- C9: `m_map` performs no validation of `len`: for every `len` (including 0
and values that are not page-aligned), a call with page-aligned `start` and
valid `port` is forwarded to the address space's `insert_framed_area`, so the
result is exactly whatever that operation returns. -/
theorem m_map_ignores_len {M : Type} (ops : MemOps M) (tcb : TaskControlBlock M)
    (start port : Nat) (ha : start % 4096 = 0) (hb : port &&& USIZE_NOT_7 = 0)
    (hc : port &&& 0x7 ≠ 0) :
    ∀ len : Nat, tcb.m_map ops start len port =
      ({ tcb with memory_set :=
           (ops.insert_framed_area tcb.memory_set start (start + len)
             ((port <<< 1) ||| 0x18)).1 },
       (ops.insert_framed_area tcb.memory_set start (start + len)
         ((port <<< 1) ||| 0x18)).2) := by
  intro len
  simp only [TaskControlBlock.m_map, if_pos (And.intro ha (And.intro hb hc))]

/-- C9 witness: `len = 0`, which is not a positive page multiple, is still
forwarded (the trivial instance maps it successfully with result 0). -/
theorem m_map_ignores_len_witness :
    sampleTCB.m_map unitMemOps 4096 0 1 =
      ({ sampleTCB with memory_set :=
           (unitMemOps.insert_framed_area sampleTCB.memory_set 4096 (4096 + 0)
             ((1 <<< 1) ||| 0x18)).1 },
       (unitMemOps.insert_framed_area sampleTCB.memory_set 4096 (4096 + 0)
         ((1 <<< 1) ||| 0x18)).2) :=
  m_map_ignores_len unitMemOps sampleTCB 4096 1 (by decide) (by decide) (by decide) 0

/-- C10: for every accepted `m_map` call, the permission value handed to the
address space is exactly `(port << 1) | 0x18`; that value always has bit 3
(execute) and bit 4 (user access) set, regardless of the requested bits. -/
theorem m_map_permission_value {M : Type} (ops : MemOps M)
    (tcb : TaskControlBlock M) (start len port : Nat) (ha : start % 4096 = 0)
    (hb : port &&& USIZE_NOT_7 = 0) (hc : port &&& 0x7 ≠ 0) :
    tcb.m_map ops start len port =
      ({ tcb with memory_set :=
           (ops.insert_framed_area tcb.memory_set start (start + len)
             ((port <<< 1) ||| 0x18)).1 },
       (ops.insert_framed_area tcb.memory_set start (start + len)
         ((port <<< 1) ||| 0x18)).2) ∧
    Nat.testBit ((port <<< 1) ||| 0x18) 3 = true ∧
    Nat.testBit ((port <<< 1) ||| 0x18) 4 = true := by
  refine ⟨?_, ?_, ?_⟩
  · simp only [TaskControlBlock.m_map, if_pos (And.intro ha (And.intro hb hc))]
  · rw [Nat.testBit_lor]
    have h3 : Nat.testBit 0x18 3 = true := by decide
    rw [h3, Bool.or_true]
  · rw [Nat.testBit_lor]
    have h4 : Nat.testBit 0x18 4 = true := by decide
    rw [h4, Bool.or_true]

/-- C10 witness: a read-only request (`port = 1`) is forwarded with permission
value `(1 << 1) | 0x18 = 26`, whose execute bit is set. -/
theorem m_map_permission_value_witness :
    sampleTCB.m_map unitMemOps 4096 4096 1 =
      ({ sampleTCB with memory_set :=
           (unitMemOps.insert_framed_area sampleTCB.memory_set 4096 (4096 + 4096)
             ((1 <<< 1) ||| 0x18)).1 },
       (unitMemOps.insert_framed_area sampleTCB.memory_set 4096 (4096 + 4096)
         ((1 <<< 1) ||| 0x18)).2) ∧
    Nat.testBit ((1 <<< 1) ||| 0x18) 3 = true ∧
    Nat.testBit ((1 <<< 1) ||| 0x18) 4 = true :=
  m_map_permission_value unitMemOps sampleTCB 4096 4096 1
    (by decide) (by decide) (by decide)

/-- C5: `m_unmap` returns `-1` and leaves the task (including its address-space
state) unchanged whenever `start` or `len` is not page-aligned; when both are
aligned it delegates removal of exactly `[start, start + len)` to the address
space's `remove_area`, returning that operation's result. -/
theorem m_unmap_spec {M : Type} (ops : MemOps M) (tcb : TaskControlBlock M)
    (start len : Nat) :
    ((¬ start % 4096 = 0 ∨ ¬ len % 4096 = 0) →
      tcb.m_unmap ops start len = (tcb, -1)) ∧
    (start % 4096 = 0 → len % 4096 = 0 →
      tcb.m_unmap ops start len =
        ({ tcb with memory_set :=
             (ops.remove_area tcb.memory_set start (start + len)).1 },
         (ops.remove_area tcb.memory_set start (start + len)).2)) := by
  constructor
  · intro h
    have hcond : ¬ (start % 4096 = 0 ∧ len % 4096 = 0) := by
      rintro ⟨h1, h2⟩
      rcases h with h | h
      · exact h h1
      · exact h h2
    simp only [TaskControlBlock.m_unmap, if_neg hcond]
  · intro h1 h2
    simp only [TaskControlBlock.m_unmap, if_pos (And.intro h1 h2)]

/-- C5 witness: a misaligned length (5) is rejected with the task unchanged. -/
theorem m_unmap_spec_witness :
    sampleTCB.m_unmap unitMemOps 4096 5 = (sampleTCB, -1) :=
  (m_unmap_spec unitMemOps sampleTCB 4096 5).1 (Or.inr (by decide))

/-- C3: the accounting read path recomputes the current task's elapsed time as
`now - task_start_time`, stores it into the task's `TaskInfo`, returns a
by-value snapshot of that `TaskInfo`, and (via the `refresh_task_info` call
that precedes the read on the same path) syncs the snapshot's status mirror
from the TCB's authoritative `task_status` before the snapshot is returned. -/
theorem task_info_read_path_spec {M : Type} (p : Processor M)
    (tcb : TaskControlBlock M) (syscall_idx now : Nat)
    (hc : p.current = some tcb) :
    ∃ p1 info,
      p.task_info_read_path syscall_idx now = some (p1, info) ∧
      info.time = now - tcb.task_start_time ∧
      info.status = tcb.task_status ∧
      ∃ tcb1, p1.current = some tcb1 ∧ tcb1.task_info = info ∧
        tcb1.task_status = tcb.task_status ∧
        tcb1.task_start_time = tcb.task_start_time := by
  unfold Processor.task_info_read_path Processor.refresh_task_info
    Processor.get_current_task_info
  rw [hc]
  refine ⟨_, _, rfl, rfl, ?_, _, rfl, rfl, rfl, rfl⟩
  simp only [TaskInfo.set_run_time, TaskInfo.increase_syscall_time,
    TaskInfo.set_status]
  by_cases hi : syscall_idx < MAX_SYSCALL_NUM <;> simp [hi]

/-- C3 witness: on the sample processor the read path produces a snapshot. -/
theorem task_info_read_path_spec_witness :
    (sampleProcessor.task_info_read_path 7 5).isSome = true := by
  obtain ⟨p1, info, h1, -, -, -⟩ :=
    task_info_read_path_spec sampleProcessor sampleTCB 7 5 rfl
  rw [h1]
  rfl

/-- C4: `increase_syscall_time` with an out-of-range id (`id >= MAX_SYSCALL_NUM`)
is a total no-op that leaves the counter array entirely unchanged; with an
in-range id it increments exactly the counter at that id by 1 (exact as long
as the `u32` counter is below its saturation point) and leaves every other
entry, the status mirror, the time field, and the array length unchanged. -/
theorem increase_syscall_time_spec (info : TaskInfo) (idx : Nat) :
    (MAX_SYSCALL_NUM ≤ idx → info.increase_syscall_time idx = info) ∧
    (idx < MAX_SYSCALL_NUM → info.syscall_times.length = MAX_SYSCALL_NUM →
      info.syscall_times.getD idx 0 + 1 < UINT32_MOD →
      (info.increase_syscall_time idx).syscall_times.getD idx 0 =
        info.syscall_times.getD idx 0 + 1 ∧
      (∀ j, j ≠ idx →
        (info.increase_syscall_time idx).syscall_times.getD j 0 =
          info.syscall_times.getD j 0) ∧
      (info.increase_syscall_time idx).status = info.status ∧
      (info.increase_syscall_time idx).time = info.time ∧
      (info.increase_syscall_time idx).syscall_times.length =
        info.syscall_times.length) := by
  constructor
  · intro h
    simp only [TaskInfo.increase_syscall_time, if_neg (not_lt.mpr h)]
  · intro hidx hlen hsat
    have hlt : idx < info.syscall_times.length := by rw [hlen]; exact hidx
    simp only [TaskInfo.increase_syscall_time, if_pos hidx]
    refine ⟨?_, ?_, ?_, ?_, ?_⟩
    · simp only [List.getD_eq_getElem?_getD] at hsat ⊢
      rw [List.getElem?_set_self hlt]
      simp only [Option.getD_some]
      exact Nat.mod_eq_of_lt hsat
    · intro j hj
      simp only [List.getD_eq_getElem?_getD]
      rw [List.getElem?_set_ne (Ne.symm hj)]
    · trivial
    · trivial
    · simp

/-- C4 witness: on a fresh `TaskInfo`, recording syscall id 3 bumps counter 3
from 0 to 1. -/
theorem increase_syscall_time_spec_witness :
    ((TaskInfo.new TaskStatus.Ready).increase_syscall_time 3).syscall_times.getD 3 0 =
      (TaskInfo.new TaskStatus.Ready).syscall_times.getD 3 0 + 1 :=
  ((increase_syscall_time_spec (TaskInfo.new TaskStatus.Ready) 3).2
    (by decide) (by simp [TaskInfo.new]) (by decide)).1

/-- C6: the invariant `heap_bottom <= program_brk` is established at
construction (both fields are set to the same user stack pointer) and is
preserved by `change_program_brk` (grow and shrink alike: a committed shrink
still satisfies `program_brk >= heap_bottom` because of the lower-bound
guard), `m_map`, and `m_unmap`. -/
theorem heap_bottom_le_program_brk {M : Type} (ops : MemOps M) :
    (∀ (ms : M) (user_sp trap_ppn kstack_top : Nat),
      (TaskControlBlock.new ms user_sp trap_ppn kstack_top).heap_bottom =
        (TaskControlBlock.new ms user_sp trap_ppn kstack_top).program_brk) ∧
    (∀ (tcb : TaskControlBlock M) (size : Int),
      tcb.heap_bottom ≤ tcb.program_brk →
      (tcb.change_program_brk ops size).1.heap_bottom ≤
        (tcb.change_program_brk ops size).1.program_brk) ∧
    (∀ (tcb : TaskControlBlock M) (start len port : Nat),
      tcb.heap_bottom ≤ tcb.program_brk →
      (tcb.m_map ops start len port).1.heap_bottom ≤
        (tcb.m_map ops start len port).1.program_brk) ∧
    (∀ (tcb : TaskControlBlock M) (start len : Nat),
      tcb.heap_bottom ≤ tcb.program_brk →
      (tcb.m_unmap ops start len).1.heap_bottom ≤
        (tcb.m_unmap ops start len).1.program_brk) := by
  refine ⟨?_, ?_, ?_, ?_⟩
  · intro ms user_sp trap_ppn kstack_top
    rfl
  · intro tcb size h
    simp only [TaskControlBlock.change_program_brk]
    split
    · exact h
    · rename_i hnlt
      split <;> split
      all_goals first
        | exact h
        | (show tcb.heap_bottom ≤ ((tcb.program_brk : Int) + size).toNat
           omega)
  · intro tcb start len port h
    simp only [TaskControlBlock.m_map]
    split
    · exact h
    · exact h
  · intro tcb start len h
    simp only [TaskControlBlock.m_unmap]
    split
    · exact h
    · exact h

/-- C6 witness: after a rejected shrink of 1 byte on the freshly constructed
sample task (break already at the heap bottom), the invariant still holds. -/
theorem heap_bottom_le_program_brk_witness :
    (sampleTCB.change_program_brk unitMemOps (-1)).1.heap_bottom ≤
      (sampleTCB.change_program_brk unitMemOps (-1)).1.program_brk :=
  (heap_bottom_le_program_brk unitMemOps).2.1 sampleTCB (-1) (by decide)

/-- C7: every Processor operation that resolves the current task aborts
(modelled as `none`, the `unwrap` panic path) exactly when the current slot is
empty; under the precondition that a task is current, every such operation
returns a value, so the abort branch is unreachable. -/
theorem processor_requires_current_task {M : Type} (ops : MemOps M)
    (p : Processor M) (syscall_idx : Nat) (refresh_flag : Bool)
    (now start len port : Nat) :
    (p.current = none →
      p.refresh_task_info syscall_idx refresh_flag = none ∧
      p.get_current_task_info now = none ∧
      p.current_task_m_map ops start len port = none ∧
      p.current_task_m_unmap ops start len = none ∧
      p.current_user_token ops = none ∧
      p.current_trap_cx = none) ∧
    (∀ tcb : TaskControlBlock M, p.current = some tcb →
      (p.refresh_task_info syscall_idx refresh_flag).isSome = true ∧
      (p.get_current_task_info now).isSome = true ∧
      (p.current_task_m_map ops start len port).isSome = true ∧
      (p.current_task_m_unmap ops start len).isSome = true ∧
      (p.current_user_token ops).isSome = true ∧
      (p.current_trap_cx).isSome = true) := by
  constructor
  · intro h
    refine ⟨?_, ?_, ?_, ?_, ?_, ?_⟩ <;>
      simp [Processor.refresh_task_info, Processor.get_current_task_info,
        Processor.current_task_m_map, Processor.current_task_m_unmap,
        Processor.current_user_token, Processor.current_trap_cx, h]
  · intro tcb h
    refine ⟨?_, ?_, ?_, ?_, ?_, ?_⟩ <;>
      simp [Processor.refresh_task_info, Processor.get_current_task_info,
        Processor.current_task_m_map, Processor.current_task_m_unmap,
        Processor.current_user_token, Processor.current_trap_cx, h]

/-- C7 witness: on the freshly created processor (empty current slot) all six
operations hit the abort path. -/
theorem processor_requires_current_task_witness :
    (Processor.new : Processor Unit).refresh_task_info 0 true = none ∧
    (Processor.new : Processor Unit).get_current_task_info 0 = none ∧
    Processor.current_task_m_map unitMemOps Processor.new 0 0 0 = none ∧
    Processor.current_task_m_unmap unitMemOps Processor.new 0 0 = none ∧
    Processor.current_user_token unitMemOps Processor.new = none ∧
    (Processor.new : Processor Unit).current_trap_cx = none :=
  (processor_requires_current_task unitMemOps Processor.new 0 true 0 0 0 0).1 rfl

/-- C8: in every iteration of the dispatch loop (`run_tasks`, with or without
a fetched task) and in `schedule`, all exclusive-access guards — the
`PROCESSOR` singleton guard and the selected task's inner TCB guard — have
been released before the `__switch` call: the guard counts are zero at every
`switchCall` event of the transcribed traces. -/
theorem guards_released_before_switch :
    (∀ has_task : Bool,
      noGuardHeldAtSwitch 0 0 (run_tasks_iter has_task) = true) ∧
    noGuardHeldAtSwitch 0 0 schedule_events = true := by
  constructor
  · intro b
    cases b <;> decide
  · decide

/-- C8 witness: the dispatch-loop iteration that actually switches holds no
guard at its switch point. -/
theorem guards_released_before_switch_witness :
    noGuardHeldAtSwitch 0 0 (run_tasks_iter true) = true :=
  guards_released_before_switch.1 true
